import Mathlib

/-!
Verification development for the freelanceflow backend (Express + Mongoose).

Shallow embedding of the proposal/project workflow:
  * `src/controllers/proposalController.js` — createProposal, getProposals,
    updateProposalStatus, withdrawProposal, buildPagination,
    canActAsClientOnProject, handleControllerError (status-code mapping).
  * `src/controllers/projectController.js` — getProjects (role-aware listing).
  * `src/controllers/adminController.js` — getAdminOverview 7-day trend.
  * `src/models/Proposal.js`, `src/models/Project.js` — the fields the
    controllers read and write, and the unique (project, freelancer) index.

Modelling conventions:
  * Mongo ObjectIds are `Nat`; an `Option Nat` query parameter models
    "absent or not a valid ObjectId" as `none` (the controllers guard every
    id with `isValidId` before using it).
  * Dates are `Nat` (milliseconds are irrelevant; we use seconds since epoch,
    one timezone; `dayOf t = t / 86400` models the `%Y-%m-%d` calendar-day
    key of `$dateToString`).
  * A document store is a `DB` record of lists; `Model.findById` is `find?`
    on id, `doc.save()` replaces the list entry with the same id.
  * Controllers return `DB × Nat` (or `DB × Resp`): the store after all
    writes performed plus the HTTP status of the JSON response.  A JS
    `TypeError` escaping to the catch block surfaces through
    `handleControllerError` as status 500 (`e.status` is undefined).
  * The `if (!userId) throw 401` guards are modelled by taking the caller
    as `Option (Nat × Role)` (`req.user?._id`, `req.user?.role`).
  * JS string truthiness: `''` is falsy; `truthyStr` normalises an optional
    query string accordingly.
-/

/-- Roles carried by `req.user.role` (src/models/User.js enum). -/
inductive Role where
  | client
  | freelancer
  | admin
deriving DecidableEq, Repr

/-- Proposal statuses (src/models/Proposal.js enum). -/
inductive PStatus where
  | pending
  | accepted
  | rejected
  | withdrawn
deriving DecidableEq, Repr

/-- Project statuses (src/models/Project.js enum). -/
inductive ProjStatus where
  | draft
  | «open»
  | inProgress
  | completed
  | cancelled
  | dispute
deriving DecidableEq, Repr

/-- The stored string of a `ProjStatus` (Mongo compares the raw string of a
`status` query parameter against this). -/
def projStatusStr : ProjStatus → String
  | .draft => "draft"
  | .«open» => "open"
  | .inProgress => "in-progress"
  | .completed => "completed"
  | .cancelled => "cancelled"
  | .dispute => "dispute"

/-- The stored string of a `PStatus`. -/
def pStatusStr : PStatus → String
  | .pending => "pending"
  | .accepted => "accepted"
  | .rejected => "rejected"
  | .withdrawn => "withdrawn"

/-- A Project document — the fields read or written by the modelled
controllers (title/description/budget and other presentation-only fields are
not consulted by the modelled logic and are omitted). -/
structure Project where
  id : Nat
  client : Nat
  freelancer : Option Nat
  status : ProjStatus
  category : String
  skills : List String
  proposalCount : Nat
  createdAt : Nat
deriving DecidableEq, Repr

/-- A Proposal document — the fields read or written by the modelled
controllers. -/
structure Proposal where
  id : Nat
  project : Nat
  freelancer : Nat
  coverLetter : String
  bidAmount : Int
  timeline : String
  status : PStatus
  clientResponse : Option String
  respondedAt : Option Nat
  createdAt : Nat
deriving DecidableEq, Repr

/-- The document store: the Projects and Proposals collections. -/
structure DB where
  projects : List Project
  proposals : List Proposal
deriving DecidableEq, Repr

/-- `Project.findById` -/
def findProject (db : DB) (i : Nat) : Option Project :=
  db.projects.find? (fun x => x.id == i)

/-- `Proposal.findById` -/
def findProposal (db : DB) (i : Nat) : Option Proposal :=
  db.proposals.find? (fun p => p.id == i)

/-- `project.save()` — replace the stored document with the same `_id`. -/
def saveProject (db : DB) (x : Project) : DB :=
  { db with projects := db.projects.map (fun y => if y.id == x.id then x else y) }

/-- `proposal.save()` — replace the stored document with the same `_id`. -/
def saveProposal (db : DB) (p : Proposal) : DB :=
  { db with proposals := db.proposals.map (fun q => if q.id == p.id then p else q) }

/-- JS whitespace for `trim` / the `[,\s]+` split. -/
def isJsWs (c : Char) : Bool :=
  c = ' ' || c = '\t' || c = '\n' || c = '\r'

/-- `String.prototype.trim` on the character list. -/
def trimChars (l : List Char) : List Char :=
  ((l.dropWhile isJsWs).reverse.dropWhile isJsWs).reverse

/-- `String.prototype.trim` (executable model; Lean's own `String.trim` does
not reduce in the kernel). -/
def jsTrim (s : String) : String :=
  ⟨trimChars s.data⟩

/-- Splitting on `/[,\s]+/`: maximal runs of non-separator characters.
(The regex split can also produce empty pieces at the borders, but the
caller filters out falsy pieces, so the run-based model is equivalent
after that filter.) -/
def splitRunsAux (cur : List Char) (acc : List String) : List Char → List String
  | [] => (⟨cur.reverse⟩ :: acc).reverse
  | c :: rest =>
      if isJsWs c || c = ',' then
        splitRunsAux [] (⟨cur.reverse⟩ :: acc) rest
      else
        splitRunsAux (c :: cur) acc rest

/-- `String(skills).split(/[,\s]+/).map(s => s.trim()).filter(Boolean)` -/
def splitSkills (s : String) : List String :=
  ((splitRunsAux [] [] s.data).map jsTrim).filter (fun piece => piece ≠ "")

/-- JS truthiness of an optional string query parameter: absent and `''`
are falsy. -/
def truthyStr (o : Option String) : Option String :=
  match o with
  | some s => if s = "" then none else some s
  | none => none

/-- `buildPagination` (identical helper in proposalController.js and
projectController.js):

    const page  = Math.max(1, Number(req.query.page) || 1);
    const limit = Math.min(100, Math.max(1, Number(req.query.limit) || 20));
    const skip  = (page - 1) * limit;

`none` models an absent or non-numeric (`NaN`) query value; `Number(v) || d`
also maps `0` to the default `d`. -/
def buildPagination (pageQ limitQ : Option Int) : Nat × Nat × Nat :=
  let pageI : Int := max 1 (match pageQ with
    | none => 1
    | some v => if v = 0 then 1 else v)
  let limitI : Int := min 100 (max 1 (match limitQ with
    | none => 20
    | some v => if v = 0 then 20 else v))
  let page := pageI.toNat
  let limit := limitI.toNat
  (page, limit, (page - 1) * limit)

/-- `Math.ceil(a / b)` for the natural counts used in pagination metadata. -/
def mathCeilDiv (a b : Nat) : Nat :=
  a / b + (if a % b = 0 then 0 else 1)

/-- `canActAsClientOnProject(userId, projectId)` — the project exists and its
`client` field is the caller. -/
def canActAsClientOnProject (db : DB) (userId : Nat) (projectId : Nat) : Bool :=
  match findProject db projectId with
  | none => false
  | some proj => proj.client == userId

/-! ### GET /api/proposals — role-scoped listing (proposalController.getProposals) -/

/-- The Mongo filter object built by `getProposals` (lines 150–172). -/
structure PropFilter where
  project : Option Nat := none
  projectIn : Option (List Nat) := none
  freelancer : Option Nat := none
  status : Option String := none
deriving DecidableEq, Repr

/-- Whether a stored proposal matches the filter (`Proposal.find(filter)` /
`Proposal.countDocuments(filter)` semantics for the operators used). -/
def proposalMatches (f : PropFilter) (p : Proposal) : Bool :=
  (match f.project with | some i => p.project == i | none => true) &&
  (match f.projectIn with | some ids => ids.contains p.project | none => true) &&
  (match f.freelancer with | some u => p.freelancer == u | none => true) &&
  (match f.status with | some s => pStatusStr p.status == s | none => true)

/-- Filter construction of `getProposals`: admin — raw filters; client — own
projects only (403 on a foreign project filter, otherwise the `$in` expansion
over owned projects); freelancer — own proposals only.  `projectQ = none`
models an absent or invalid (`!isValidId`) project parameter. -/
def buildProposalFilter (db : DB) (userId : Nat) (role : Role)
    (projectQ : Option Nat) (statusQ : Option String) : Except Nat PropFilter :=
  let sq := truthyStr statusQ
  match role with
  | .admin => .ok { project := projectQ, status := sq }
  | .client =>
    match projectQ with
    | some pid =>
        if canActAsClientOnProject db userId pid then
          .ok { project := some pid, status := sq }
        else
          .error 403
    | none =>
        let myProjects := (db.projects.filter (fun x => x.client == userId)).map
          (fun x => x.id)
        .ok { projectIn := some myProjects, status := sq }
  | .freelancer => .ok { freelancer := some userId, project := projectQ, status := sq }

/-- Insertion of `a` into `l` before the first element `b` with `le a b`. -/
def insertBy {α : Type} (le : α → α → Bool) (a : α) : List α → List α
  | [] => [a]
  | b :: t => if le a b then a :: b :: t else b :: insertBy le a t

/-- Executable sort by `le` (models the store's `.sort(key)`: the store's
sorting algorithm and its order among ties are unspecified, so any sort by
the key is a faithful model; insertion sort is used because it reduces in
the kernel). -/
def mongoSort {α : Type} (le : α → α → Bool) : List α → List α
  | [] => []
  | a :: t => insertBy le a (mongoSort le t)

/-- `.sort(sortBy)` for the sort keys the frontend uses; other keys are not
modelled (left unsorted). -/
def sortProposals (key : String) (l : List Proposal) : List Proposal :=
  if key = "-createdAt" then
    mongoSort (fun a b => b.createdAt ≤ a.createdAt) l
  else if key = "createdAt" then
    mongoSort (fun a b => a.createdAt ≤ b.createdAt) l
  else
    l

/-- `const sortBy = sort || '-createdAt';` (JS falsiness: `''` also defaults). -/
def sortKeyOf (sortQ : Option String) : String :=
  match sortQ with
  | some s => if s = "" then "-createdAt" else s
  | none => "-createdAt"

/-- The response envelope of a listing call. -/
structure ListResult where
  items : List Proposal
  page : Nat
  limit : Nat
  total : Nat
  totalPages : Nat
deriving DecidableEq, Repr

/-- `GET /api/proposals` (lines 140–198).  `user = none` is the
`if (!userId) 401` guard; error statuses are returned in `Except.error`. -/
def getProposals (db : DB) (user : Option (Nat × Role))
    (projectQ : Option Nat) (statusQ : Option String) (sortQ : Option String)
    (pageQ limitQ : Option Int) : Except Nat ListResult :=
  match user with
  | none => .error 401
  | some (userId, role) =>
    match buildProposalFilter db userId role projectQ statusQ with
    | .error e => .error e
    | .ok f =>
      let pg := buildPagination pageQ limitQ
      let sortBy := sortKeyOf sortQ
      let matched := db.proposals.filter (fun p => proposalMatches f p)
      let items := ((sortProposals sortBy matched).drop pg.2.2).take pg.2.1
      .ok { items := items, page := pg.1, limit := pg.2.1,
            total := matched.length,
            totalPages := mathCeilDiv matched.length pg.2.1 }

/-! ### PATCH /api/proposals/:id/status (proposalController.updateProposalStatus) -/

/-- The proposal document after the write of lines 321–326: status set to the
requested value, `clientResponse` replaced when a truthy one was supplied,
`respondedAt` set to now. -/
def respondedProposal (prop : Proposal) (status : String)
    (clientResponse : Option String) (now : Nat) : Proposal :=
  { prop with
    status := if status = "accepted" then PStatus.accepted else PStatus.rejected,
    clientResponse := match clientResponse with
      | some s => if s = "" then prop.clientResponse else some (jsTrim s)
      | none => prop.clientResponse,
    respondedAt := some now }

/-- Lines 317–352 of updateProposalStatus, after the auth/ownership checks:
record the previous status, write the proposal, then perform the
project-side coupling.  `projPop` is the result of
`.populate('project', ...)` — `none` when the referenced project no longer
exists (Mongoose leaves `proposal.project` as `null`; dereferencing it in
`proposal.project._id` then throws a TypeError, which the catch block
serialises as a 500 — after the proposal write already happened). -/
def updateProposalStatusBody (db : DB) (prop : Proposal) (projPop : Option Project)
    (status : String) (clientResponse : Option String) (now : Nat) : DB × Nat :=
  let prevStatus := prop.status
  let db1 := saveProposal db (respondedProposal prop status clientResponse now)
  if status = "accepted" then
    -- ACCEPTED → assign and move project to in-progress
    match projPop with
    | none => (db1, 500)  -- TypeError on proposal.project._id
    | some projRef =>
      match findProject db1 projRef.id with
      | none => (db1, 200)  -- if (project) { ... }: silently skip
      | some project =>
        (saveProject db1
          { project with freelancer := some prop.freelancer,
                         status := ProjStatus.inProgress }, 200)
  else if prevStatus = PStatus.accepted then
    -- EDGE CASE: was accepted, now rejected → clear assignment and reopen
    match projPop with
    | none => (db1, 500)  -- TypeError on proposal.project._id
    | some projRef =>
      match findProject db1 projRef.id with
      | none => (db1, 200)
      | some project =>
        if project.freelancer = some prop.freelancer then
          (saveProject db1
            { project with freelancer := none, status := ProjStatus.«open» }, 200)
        else
          (db1, 200)
  else
    (db1, 200)

/-- `PATCH /api/proposals/:id/status` (lines 286–388).  Returns the store
after all writes performed together with the HTTP status.  The notification
block (lines 354–382) has no store effect and swallows its own errors, so it
is not modelled. -/
def updateProposalStatus (db : DB) (user : Option (Nat × Role)) (pid : Nat)
    (status : String) (clientResponse : Option String) (now : Nat) : DB × Nat :=
  match user with
  | none => (db, 401)
  | some (userId, role) =>
    if role ≠ Role.client ∧ role ≠ Role.admin then (db, 403)
    else if status ≠ "accepted" ∧ status ≠ "rejected" then (db, 400)
    else
      match findProposal db pid with
      | none => (db, 404)
      | some prop =>
        let projPop := findProject db prop.project
        if role = Role.admin then
          updateProposalStatusBody db prop projPop status clientResponse now
        else
          -- role = client: ownership check reads proposal.project.client
          match projPop with
          | none => (db, 500)  -- TypeError: proposal.project is null
          | some proj =>
            if proj.client ≠ userId then (db, 403)
            else updateProposalStatusBody db prop projPop status clientResponse now

/-! ### PATCH /api/proposals/:id/withdraw (proposalController.withdrawProposal) -/

/-- `PATCH /api/proposals/:id/withdraw` (lines 394–420). -/
def withdrawProposal (db : DB) (user : Option (Nat × Role)) (pid : Nat) : DB × Nat :=
  match user with
  | none => (db, 401)
  | some (userId, role) =>
    if role ≠ Role.freelancer ∧ role ≠ Role.admin then (db, 403)
    else
      match findProposal db pid with
      | none => (db, 404)
      | some prop =>
        if role ≠ Role.admin ∧ prop.freelancer ≠ userId then (db, 403)
        else (saveProposal db { prop with status := PStatus.withdrawn }, 200)

/-! ### POST /api/proposals (proposalController.createProposal) -/

/-- The request body of `POST /api/proposals`; `project = none` models an
absent or invalid id, `bidAmount = none` a non-numeric value
(`asNumber` / `Number.isFinite`). -/
structure CreateBody where
  project : Option Nat
  coverLetter : String
  bidAmount : Option Int
  timeline : String
deriving Repr

/-- `POST /api/proposals` (lines 72–130).  Returns the store, the HTTP status
and the response message.  `Proposal.create` hits the unique index
`{project: 1, freelancer: 1}` of src/models/Proposal.js: when a proposal for
the same (project, freelancer) pair already exists the store raises a
duplicate-key error (`code === 11000`), which `handleControllerError`
(lines 22–34) maps to HTTP 409 with the structured
`You have already applied to this project` error — modelled here by the
membership test guarding the insert. -/
def createProposal (db : DB) (user : Option (Nat × Role)) (b : CreateBody)
    (newId : Nat) (now : Nat) : DB × Nat × String :=
  match user with
  | none => (db, 401, "Unauthorized")
  | some (userId, role) =>
    if role ≠ Role.freelancer then
      (db, 403, "Only freelancers can submit proposals")
    else
      match b.project with
      | none => (db, 400, "Valid project id is required")
      | some projId =>
        if jsTrim b.coverLetter = "" then (db, 400, "Cover letter is required")
        else
          match b.bidAmount with
          | none => (db, 400, "Bid amount must be at least 1")
          | some bid =>
            if bid < 1 then (db, 400, "Bid amount must be at least 1")
            else if jsTrim b.timeline = "" then (db, 400, "Timeline is required")
            else
              match findProject db projId with
              | none => (db, 404, "Project not found")
              | some proj =>
                if db.proposals.any
                    (fun q => q.project == projId && q.freelancer == userId) then
                  -- E11000 duplicate key on {project, freelancer} → 409
                  (db, 409, "You have already applied to this project")
                else
                  let prop : Proposal :=
                    { id := newId, project := projId, freelancer := userId,
                      coverLetter := jsTrim b.coverLetter, bidAmount := bid,
                      timeline := jsTrim b.timeline, status := PStatus.pending,
                      clientResponse := none, respondedAt := none, createdAt := now }
                  let db1 : DB := { db with proposals := db.proposals ++ [prop] }
                  -- best-effort proposalCount increment (non-blocking)
                  let db2 := saveProject db1
                    { proj with proposalCount := proj.proposalCount + 1 }
                  (db2, 201, "Proposal submitted successfully")

/-! ### GET /api/projects (projectController.getProjects) -/

/-- The Mongo filter object built by `getProjects` (lines 54–89). -/
structure ProjFilter where
  text : Option String := none
  category : Option String := none
  skillsIn : Option (List String) := none
  status : Option String := none
  client : Option Nat := none
  freelancer : Option Nat := none
deriving DecidableEq, Repr

/-- Whether a stored project matches the filter.  `tm` is the `$text` search
predicate of the store (external: text-index semantics), only consulted when
a `q` parameter was given. -/
def projectMatches (tm : String → Project → Bool) (f : ProjFilter) (x : Project) : Bool :=
  (match f.text with | some s => tm s x | none => true) &&
  (match f.category with | some c => x.category == c | none => true) &&
  (match f.skillsIn with | some arr => x.skills.any (fun sk => arr.contains sk) | none => true) &&
  (match f.status with | some s => projStatusStr x.status == s | none => true) &&
  (match f.client with | some u => x.client == u | none => true) &&
  (match f.freelancer with | some u => x.freelancer == some u | none => true)

/-- Filter construction of `getProjects` (lines 54–89): free-text, category,
skills and status filters, then the role-aware scope:

    if (mine && authUserId) { ... } else if (!authUserId) {
      if (!filter.status) filter.status = 'open';
    } else {
      if (!q && !category && !skills && !status) filter.status = 'open';
    }
-/
def buildProjectFilter (authUserId : Option Nat)
    (q category skills status mine : Option String) : ProjFilter :=
  let f0 : ProjFilter := {}
  let f1 := match q with
    | some s => if jsTrim s ≠ "" then { f0 with text := some (jsTrim s) } else f0
    | none => f0
  let f2 := match truthyStr category with
    | some c => { f1 with category := some c }
    | none => f1
  let f3 := match truthyStr skills with
    | some sk =>
        let arr := splitSkills sk
        if arr ≠ [] then { f2 with skillsIn := some arr } else f2
    | none => f2
  let f4 := match truthyStr status with
    | some s => { f3 with status := some s }
    | none => f3
  match truthyStr mine, authUserId with
  | some m, some uid =>
      let f5 := if m = "client" then { f4 with client := some uid } else f4
      if m = "freelancer" then { f5 with freelancer := some uid } else f5
  | _, none =>
      -- Public browse (not logged in): only open projects
      if f4.status = none then { f4 with status := some "open" } else f4
  | none, some _ =>
      -- Logged-in but not using "mine": default to open browse when no filters
      if truthyStr q = none ∧ truthyStr category = none ∧
         truthyStr skills = none ∧ truthyStr status = none then
        { f4 with status := some "open" }
      else f4

/-- The response envelope of the project listing. -/
structure ProjListResult where
  items : List Project
  page : Nat
  limit : Nat
  total : Nat
  totalPages : Nat
deriving DecidableEq, Repr

/-- `.sort(sortBy)` on projects for the keys the frontend uses. -/
def sortProjects (key : String) (l : List Project) : List Project :=
  if key = "-createdAt" then
    mongoSort (fun a b => b.createdAt ≤ a.createdAt) l
  else if key = "createdAt" then
    mongoSort (fun a b => a.createdAt ≤ b.createdAt) l
  else
    l

/-- `GET /api/projects` (lines 37–112); never errors (no auth requirement). -/
def getProjects (tm : String → Project → Bool) (db : DB) (authUserId : Option Nat)
    (q category skills status mine sortQ : Option String)
    (pageQ limitQ : Option Int) : ProjListResult :=
  let f := buildProjectFilter authUserId q category skills status mine
  let pg := buildPagination pageQ limitQ
  let sortBy := sortKeyOf sortQ
  let matched := db.projects.filter (fun x => projectMatches tm f x)
  { items := ((sortProjects sortBy matched).drop pg.2.2).take pg.2.1,
    page := pg.1, limit := pg.2.1, total := matched.length,
    totalPages := mathCeilDiv matched.length pg.2.1 }

/-! ### Admin overview 7-day trend (adminController.getAdminOverview, lines 63–77) -/

/-- The calendar day of a timestamp (the `%Y-%m-%d` group key of
`$dateToString`, as a day number). -/
def dayOf (t : Nat) : Nat := t / 86400

/-- The 7-day project-creation trend of `getAdminOverview`:

    const sevenDaysAgo = new Date();
    sevenDaysAgo.setDate(sevenDaysAgo.getDate() - 6);
    Project.aggregate([{ $match: { createdAt: { $gte: sevenDaysAgo } } },
      { $group: { _id: {$dateToString %Y-%m-%d createdAt}, count: {$sum 1} } },
      { $sort: { _id: 1 } }]);

The cutoff is *now minus six days at the same time of day*, and the result
groups the matching projects by calendar day, ascending. -/
def adminTrend7d (db : DB) (now : Nat) : List (Nat × Nat) :=
  let cutoff := now - 6 * 86400
  let matched := db.projects.filter (fun x => cutoff ≤ x.createdAt)
  let days := (matched.map (fun x => dayOf x.createdAt)).dedup
  (mongoSort (fun a b => a ≤ b) days).map
    (fun d => (d, (matched.filter (fun x => dayOf x.createdAt == d)).length))

/-! ## Helper lemmas -/

theorem find?_replace {α : Type} (idf : α → Nat) (l : List α) (i : Nat) (x x' : α)
    (h : l.find? (fun a => idf a == i) = some x) (hx : idf x' = i) :
    (l.map (fun a => if idf a == i then x' else a)).find? (fun a => idf a == i)
      = some x' := by
  induction l with
  | nil => simp at h
  | cons b t ih =>
    by_cases hb : idf b = i
    · simp [List.find?, hb, hx]
    · have hb' : ¬((idf b == i) = true) := by simpa using hb
      rw [List.find?_cons_of_neg (p := fun a => idf a == i) t hb'] at h
      rw [List.map_cons, if_neg hb',
        List.find?_cons_of_neg (p := fun a => idf a == i) _ hb']
      exact ih h

theorem findProposal_id {db : DB} {pid : Nat} {p : Proposal}
    (h : findProposal db pid = some p) : p.id = pid := by
  have := List.find?_some h
  simpa using this

theorem findProject_id {db : DB} {i : Nat} {x : Project}
    (h : findProject db i = some x) : x.id = i := by
  have := List.find?_some h
  simpa using this

theorem findProject_saveProposal (db : DB) (p : Proposal) (i : Nat) :
    findProject (saveProposal db p) i = findProject db i := rfl

theorem findProposal_saveProject (db : DB) (x : Project) (i : Nat) :
    findProposal (saveProject db x) i = findProposal db i := rfl

theorem projects_saveProposal (db : DB) (p : Proposal) :
    (saveProposal db p).projects = db.projects := rfl

theorem proposals_saveProject (db : DB) (x : Project) :
    (saveProject db x).proposals = db.proposals := rfl

theorem findProject_saveProject_self (db : DB) (x' : Project) (i : Nat)
    (hex : ∃ x, findProject db i = some x) (hid : x'.id = i) :
    findProject (saveProject db x') i = some x' := by
  obtain ⟨x, hx⟩ := hex
  subst hid
  exact find?_replace Project.id db.projects x'.id x x' hx rfl

theorem findProposal_saveProposal_self (db : DB) (p' : Proposal) (i : Nat)
    (hex : ∃ p, findProposal db i = some p) (hid : p'.id = i) :
    findProposal (saveProposal db p') i = some p' := by
  obtain ⟨p, hp⟩ := hex
  subst hid
  exact find?_replace Proposal.id db.proposals p'.id p p' hp rfl

theorem mem_insertBy {α : Type} (le : α → α → Bool) (a x : α) (l : List α) :
    x ∈ insertBy le a l ↔ x = a ∨ x ∈ l := by
  induction l with
  | nil => simp [insertBy]
  | cons b t ih =>
    by_cases hb : le a b = true
    · rw [insertBy, if_pos hb]
      simp [List.mem_cons]
    · rw [insertBy, if_neg hb]
      simp only [List.mem_cons, ih]
      tauto

theorem mem_mongoSort {α : Type} (le : α → α → Bool) (x : α) (l : List α) :
    x ∈ mongoSort le l ↔ x ∈ l := by
  induction l with
  | nil => simp [mongoSort]
  | cons b t ih =>
    simp only [mongoSort, mem_insertBy, List.mem_cons, ih]

theorem mem_sortProposals (key : String) (p : Proposal) (l : List Proposal) :
    p ∈ sortProposals key l ↔ p ∈ l := by
  unfold sortProposals
  split
  · exact mem_mongoSort _ p l
  · split
    · exact mem_mongoSort _ p l
    · exact Iff.rfl

theorem pairwise_insertBy {α : Type} (le : α → α → Bool)
    (htot : ∀ a b, le a b = false → le b a = true)
    (htrans : ∀ a b c, le a b = true → le b c = true → le a c = true)
    (a : α) (l : List α) (hl : List.Pairwise (fun x y => le x y = true) l) :
    List.Pairwise (fun x y => le x y = true) (insertBy le a l) := by
  induction l with
  | nil => simp [insertBy]
  | cons b t ih =>
    have hb := (List.pairwise_cons.mp hl).1
    have ht := (List.pairwise_cons.mp hl).2
    by_cases hab : le a b = true
    · rw [insertBy, if_pos hab]
      refine List.Pairwise.cons ?_ (List.Pairwise.cons hb ht)
      intro x hx
      rcases List.mem_cons.mp hx with rfl | hx
      · exact hab
      · exact htrans a b x hab (hb x hx)
    · rw [insertBy, if_neg hab]
      refine List.Pairwise.cons ?_ (ih ht)
      intro x hx
      rcases (mem_insertBy le a x t).mp hx with h1 | h1
      · rw [h1]
        exact htot a b (Bool.eq_false_iff.mpr hab)
      · exact hb x h1

theorem pairwise_mongoSort {α : Type} (le : α → α → Bool)
    (htot : ∀ a b, le a b = false → le b a = true)
    (htrans : ∀ a b c, le a b = true → le b c = true → le a c = true)
    (l : List α) :
    List.Pairwise (fun x y => le x y = true) (mongoSort le l) := by
  induction l with
  | nil => simp [mongoSort]
  | cons b t ih => exact pairwise_insertBy le htot htrans b (mongoSort le t) ih

/-- `Math.ceil(a / b) = a / b + (a % b == 0 ? 0 : 1)` really is the ceiling of
the exact division, for a positive divisor. -/
theorem mathCeilDiv_eq_ceil (a b : Nat) (hb : 0 < b) :
    mathCeilDiv a b = ⌈(a : ℚ) / (b : ℚ)⌉₊ := by
  have hbQ : (0 : ℚ) < (b : ℚ) := by exact_mod_cast hb
  have hdm : b * (a / b) + a % b = a := Nat.div_add_mod a b
  by_cases h : a % b = 0
  · have hdvd : b ∣ a := Nat.dvd_of_mod_eq_zero h
    rw [mathCeilDiv, h, if_pos rfl, Nat.add_zero]
    rw [← Nat.cast_div hdvd (by exact_mod_cast hb.ne')]
    exact (Nat.ceil_natCast _).symm
  · rw [mathCeilDiv, if_neg h]
    symm
    rw [Nat.ceil_eq_iff (Nat.succ_ne_zero (a / b))]
    constructor
    · show ((a / b + 1 - 1 : ℕ) : ℚ) < (a : ℚ) / (b : ℚ)
      rw [lt_div_iff₀ hbQ, Nat.add_sub_cancel]
      have h2 : a / b * b + a % b = a := Nat.div_add_mod' a b
      have hm : 0 < a % b := Nat.pos_of_ne_zero h
      have hnat : a / b * b < a := by omega
      exact_mod_cast hnat
    · rw [div_le_iff₀ hbQ]
      have h2 : a / b * b + a % b = a := Nat.div_add_mod' a b
      have hm : a % b < b := Nat.mod_lt a hb
      have h3 : (a / b + 1) * b = a / b * b + b := by ring
      have hle : a ≤ (a / b + 1) * b := by rw [h3]; omega
      exact_mod_cast hle

/-! ## Reduction lemmas for updateProposalStatus -/

/-- With an authorised caller and an existing populated project, the
controller reduces to its post-authorisation body. -/
theorem updateProposalStatus_run (db : DB) (uid : Nat) (role : Role) (pid : Nat)
    (st : String) (cr : Option String) (now : Nat) (p : Proposal) (x : Project)
    (hp : findProposal db pid = some p)
    (hx : findProject db p.project = some x)
    (hst : st = "accepted" ∨ st = "rejected")
    (hauth : role = Role.admin ∨ (role = Role.client ∧ x.client = uid)) :
    updateProposalStatus db (some (uid, role)) pid st cr now =
      updateProposalStatusBody db p (some x) st cr now := by
  have hst' : ¬(st ≠ "accepted" ∧ st ≠ "rejected") := by
    rcases hst with h | h <;> simp [h]
  rcases hauth with hA | ⟨hC, hown⟩
  · subst hA
    simp only [updateProposalStatus, hp]
    rw [if_neg hst', if_pos trivial, hx, if_neg (by decide)]
  · subst hC
    simp only [updateProposalStatus, hp]
    rw [if_neg hst', if_neg (by decide), if_neg (by decide), hx]
    have hne : ¬(x.client ≠ uid) := by simp [hown]
    show (if x.client ≠ uid then (db, 403)
      else updateProposalStatusBody db p (some x) st cr now) =
      updateProposalStatusBody db p (some x) st cr now
    rw [if_neg hne]

/-- An admin caller reaches the body whatever the populated project is. -/
theorem updateProposalStatus_run_admin (db : DB) (uid : Nat) (pid : Nat)
    (st : String) (cr : Option String) (now : Nat) (p : Proposal)
    (hp : findProposal db pid = some p)
    (hst : st = "accepted" ∨ st = "rejected") :
    updateProposalStatus db (some (uid, Role.admin)) pid st cr now =
      updateProposalStatusBody db p (findProject db p.project) st cr now := by
  have hst' : ¬(st ≠ "accepted" ∧ st ≠ "rejected") := by
    rcases hst with h | h <;> simp [h]
  simp only [updateProposalStatus, hp]
  rw [if_neg hst', if_pos trivial, if_neg (by decide)]

/-- A client caller on a proposal whose project no longer exists hits the
TypeError in the ownership check: 500, nothing written. -/
theorem updateProposalStatus_client_noproj (db : DB) (uid : Nat) (pid : Nat)
    (st : String) (cr : Option String) (now : Nat) (p : Proposal)
    (hp : findProposal db pid = some p)
    (hst : st = "accepted" ∨ st = "rejected")
    (hnone : findProject db p.project = none) :
    updateProposalStatus db (some (uid, Role.client)) pid st cr now = (db, 500) := by
  have hst' : ¬(st ≠ "accepted" ∧ st ≠ "rejected") := by
    rcases hst with h | h <;> simp [h]
  simp only [updateProposalStatus, hp]
  rw [if_neg hst', if_neg (by decide), if_neg (by decide), hnone]

/-- Accepted branch of the body with an existing project: the proposal is
written, then the project is assigned this proposal's freelancer and moved
to in-progress. -/
theorem updateProposalStatusBody_accept (db : DB) (p : Proposal) (x : Project)
    (cr : Option String) (now : Nat)
    (hx : findProject db p.project = some x) :
    updateProposalStatusBody db p (some x) "accepted" cr now =
      (saveProject (saveProposal db (respondedProposal p "accepted" cr now))
        { x with freelancer := some p.freelancer, status := ProjStatus.inProgress },
       200) := by
  have hid : x.id = p.project := findProject_id hx
  have hx2 : findProject db x.id = some x := by rw [hid]; exact hx
  simp only [updateProposalStatusBody]
  rw [if_pos trivial, findProject_saveProposal, hx2]

/-- Rejecting a previously accepted proposal when the project's assigned
freelancer still matches: the project is reverted to open/unassigned. -/
theorem updateProposalStatusBody_reject_match (db : DB) (p : Proposal) (x : Project)
    (cr : Option String) (now : Nat)
    (hprev : p.status = PStatus.accepted)
    (hx : findProject db p.project = some x)
    (hfl : x.freelancer = some p.freelancer) :
    updateProposalStatusBody db p (some x) "rejected" cr now =
      (saveProject (saveProposal db (respondedProposal p "rejected" cr now))
        { x with freelancer := none, status := ProjStatus.«open» },
       200) := by
  have hid : x.id = p.project := findProject_id hx
  have hx2 : findProject db x.id = some x := by rw [hid]; exact hx
  simp only [updateProposalStatusBody]
  rw [if_neg (by decide), if_pos hprev, findProject_saveProposal, hx2]
  simp [hfl]

/-- Rejecting a previously accepted proposal when the project's assignment
has changed (or is empty): only the proposal is written. -/
theorem updateProposalStatusBody_reject_nomatch (db : DB) (p : Proposal) (x : Project)
    (cr : Option String) (now : Nat)
    (hprev : p.status = PStatus.accepted)
    (hx : findProject db p.project = some x)
    (hfl : x.freelancer ≠ some p.freelancer) :
    updateProposalStatusBody db p (some x) "rejected" cr now =
      (saveProposal db (respondedProposal p "rejected" cr now), 200) := by
  have hid : x.id = p.project := findProject_id hx
  have hx2 : findProject db x.id = some x := by rw [hid]; exact hx
  simp only [updateProposalStatusBody]
  rw [if_neg (by decide), if_pos hprev, findProject_saveProposal, hx2]
  simp [hfl]

/-- With a vanished project, the accept (and reject-after-accept) body writes
the proposal and then dies on the TypeError: 500. -/
theorem updateProposalStatusBody_noproj (db : DB) (p : Proposal)
    (cr : Option String) (now : Nat) (st : String)
    (hst : st = "accepted" ∨ (st = "rejected" ∧ p.status = PStatus.accepted)) :
    updateProposalStatusBody db p none st cr now =
      (saveProposal db (respondedProposal p st cr now), 500) := by
  simp only [updateProposalStatusBody]
  rcases hst with h | ⟨h, hprev⟩
  · subst h
    rw [if_pos rfl]
  · subst h
    rw [if_neg (by decide), if_pos hprev]

/-- Whatever branch the body takes, the written proposal is retrievable and
is exactly `respondedProposal`. -/
theorem updateProposalStatusBody_proposal (db : DB) (p : Proposal)
    (projPop : Option Project) (st : String) (cr : Option String) (now : Nat)
    (hp : findProposal db p.id = some p) :
    findProposal (updateProposalStatusBody db p projPop st cr now).1 p.id =
      some (respondedProposal p st cr now) := by
  have key : findProposal (saveProposal db (respondedProposal p st cr now)) p.id
      = some (respondedProposal p st cr now) :=
    findProposal_saveProposal_self _ _ _ ⟨p, hp⟩ rfl
  simp only [updateProposalStatusBody]
  split
  · split
    · exact key
    · split
      · exact key
      · rw [findProposal_saveProject]
        exact key
  · split
    · split
      · exact key
      · split
        · exact key
        · split
          · rw [findProposal_saveProject]
            exact key
          · exact key
    · exact key

/-- Reduction of `withdrawProposal` for an authorised caller. -/
theorem withdrawProposal_run (db : DB) (uid : Nat) (role : Role) (pid : Nat) (p : Proposal)
    (hp : findProposal db pid = some p)
    (hauth : role = Role.admin ∨ (role = Role.freelancer ∧ p.freelancer = uid)) :
    withdrawProposal db (some (uid, role)) pid =
      (saveProposal db { p with status := PStatus.withdrawn }, 200) := by
  rcases hauth with hA | ⟨hF, hown⟩
  · subst hA
    simp only [withdrawProposal, hp]
    rw [if_neg (by decide), if_neg (by simp)]
  · subst hF
    simp only [withdrawProposal, hp]
    rw [if_neg (by decide), if_neg (by simp [hown])]

/-! ## Example fixtures -/

def mkProject (i c : Nat) (fl : Option Nat) (st : ProjStatus) : Project :=
  { id := i, client := c, freelancer := fl, status := st,
    category := "web-development", skills := [], proposalCount := 0, createdAt := 0 }

def mkProposal (i pr fl : Nat) (st : PStatus) (ca : Nat) : Proposal :=
  { id := i, project := pr, freelancer := fl, coverLetter := "Cover", bidAmount := 100,
    timeline := "2 weeks", status := st, clientResponse := none, respondedAt := none,
    createdAt := ca }

/-! ## C1 -/

/-- C1: for every proposal `P` with an existing associated project `X`,
`updateProposalStatus` with `'accepted'` by the owning client or an admin
results, immediately after the call, in `X.freelancer == P.freelancer` and
`X.status == 'in-progress'`, unconditionally — whatever assignment `X`
carried before, a later accept overwrites it. -/
theorem C1_accept_assigns (db : DB) (uid : Nat) (role : Role) (pid : Nat)
    (p : Proposal) (x : Project) (cr : Option String) (now : Nat)
    (hp : findProposal db pid = some p)
    (hx : findProject db p.project = some x)
    (hauth : role = Role.admin ∨ (role = Role.client ∧ x.client = uid)) :
    (updateProposalStatus db (some (uid, role)) pid "accepted" cr now).2 = 200 ∧
    ∃ x', findProject (updateProposalStatus db (some (uid, role)) pid "accepted" cr now).1
        p.project = some x' ∧
      x'.freelancer = some p.freelancer ∧ x'.status = ProjStatus.inProgress := by
  rw [updateProposalStatus_run db uid role pid "accepted" cr now p x hp hx (Or.inl rfl) hauth,
      updateProposalStatusBody_accept db p x cr now hx]
  refine ⟨rfl,
    ⟨{ x with freelancer := some p.freelancer, status := ProjStatus.inProgress }, ?_, rfl, rfl⟩⟩
  apply findProject_saveProject_self
  · exact ⟨x, by rw [findProject_saveProposal]; exact hx⟩
  · show x.id = p.project
    exact findProject_id hx

def dbC1 : DB :=
  { projects := [mkProject 1 7 (some 6) ProjStatus.inProgress],
    proposals := [mkProposal 1 1 5 PStatus.pending 0] }

/-- Witness for C1: project 1 is already assigned to freelancer 6, yet the
owning client's accept of freelancer 5's proposal overwrites it. -/
theorem C1_accept_assigns_witness :
    (updateProposalStatus dbC1 (some (7, Role.client)) 1 "accepted" none 99).2 = 200 ∧
    ∃ x', findProject (updateProposalStatus dbC1 (some (7, Role.client)) 1 "accepted" none 99).1
        (mkProposal 1 1 5 PStatus.pending 0).project = some x' ∧
      x'.freelancer = some (mkProposal 1 1 5 PStatus.pending 0).freelancer ∧
      x'.status = ProjStatus.inProgress :=
  C1_accept_assigns dbC1 7 Role.client 1 (mkProposal 1 1 5 PStatus.pending 0)
    (mkProject 1 7 (some 6) ProjStatus.inProgress) none 99 (by decide) (by decide)
    (Or.inr ⟨rfl, by decide⟩)

/-! ## C2 -/

/-- C2: rejecting a previously accepted proposal reverts the project
(`freelancer = null`, `status = 'open'`) exactly when the project's current
freelancer equals the proposal's freelancer; otherwise the project document
is left completely untouched. -/
theorem C2_reject_reverts_iff (db : DB) (uid : Nat) (role : Role) (pid : Nat)
    (p : Proposal) (x : Project) (cr : Option String) (now : Nat)
    (hp : findProposal db pid = some p)
    (hprev : p.status = PStatus.accepted)
    (hx : findProject db p.project = some x)
    (hauth : role = Role.admin ∨ (role = Role.client ∧ x.client = uid)) :
    (updateProposalStatus db (some (uid, role)) pid "rejected" cr now).2 = 200 ∧
    (x.freelancer = some p.freelancer →
      findProject (updateProposalStatus db (some (uid, role)) pid "rejected" cr now).1
          p.project =
        some { x with freelancer := none, status := ProjStatus.«open» }) ∧
    (x.freelancer ≠ some p.freelancer →
      (updateProposalStatus db (some (uid, role)) pid "rejected" cr now).1.projects
          = db.projects ∧
      findProject (updateProposalStatus db (some (uid, role)) pid "rejected" cr now).1
          p.project = some x) := by
  rw [updateProposalStatus_run db uid role pid "rejected" cr now p x hp hx (Or.inr rfl) hauth]
  by_cases hfl : x.freelancer = some p.freelancer
  · rw [updateProposalStatusBody_reject_match db p x cr now hprev hx hfl]
    refine ⟨rfl, fun _ => ?_, fun h => absurd hfl h⟩
    apply findProject_saveProject_self
    · exact ⟨x, by rw [findProject_saveProposal]; exact hx⟩
    · show x.id = p.project
      exact findProject_id hx
  · rw [updateProposalStatusBody_reject_nomatch db p x cr now hprev hx hfl]
    refine ⟨rfl, fun h => absurd h hfl, fun _ => ⟨rfl, ?_⟩⟩
    rw [findProject_saveProposal]
    exact hx

def dbC2 : DB :=
  { projects := [mkProject 1 7 (some 5) ProjStatus.inProgress],
    proposals := [mkProposal 1 1 5 PStatus.accepted 0] }

/-- Witness for C2: the assignment still matches, so rejecting reopens
project 1 and clears the freelancer. -/
theorem C2_reject_reverts_iff_witness :
    (updateProposalStatus dbC2 (some (7, Role.client)) 1 "rejected" none 99).2 = 200 ∧
    ((mkProject 1 7 (some 5) ProjStatus.inProgress).freelancer =
        some (mkProposal 1 1 5 PStatus.accepted 0).freelancer →
      findProject (updateProposalStatus dbC2 (some (7, Role.client)) 1 "rejected" none 99).1
          (mkProposal 1 1 5 PStatus.accepted 0).project =
        some { mkProject 1 7 (some 5) ProjStatus.inProgress with
                freelancer := none, status := ProjStatus.«open» }) ∧
    ((mkProject 1 7 (some 5) ProjStatus.inProgress).freelancer ≠
        some (mkProposal 1 1 5 PStatus.accepted 0).freelancer →
      (updateProposalStatus dbC2 (some (7, Role.client)) 1 "rejected" none 99).1.projects
          = dbC2.projects ∧
      findProject (updateProposalStatus dbC2 (some (7, Role.client)) 1 "rejected" none 99).1
          (mkProposal 1 1 5 PStatus.accepted 0).project =
        some (mkProject 1 7 (some 5) ProjStatus.inProgress)) :=
  C2_reject_reverts_iff dbC2 7 Role.client 1 (mkProposal 1 1 5 PStatus.accepted 0)
    (mkProject 1 7 (some 5) ProjStatus.inProgress) none 99 (by decide) (by decide) (by decide)
    (Or.inr ⟨rfl, by decide⟩)

/-! ## C3 -/

def dbC3 : DB :=
  { projects := [mkProject 1 7 none ProjStatus.«open»],
    proposals := [mkProposal 1 1 5 PStatus.withdrawn 0] }

/-- C3 counterexample: proposal 1 is `withdrawn`, yet the owning client's
accept call succeeds and moves it to `accepted` — a transition out of
`withdrawn`, refuting the claimed terminal states. -/
theorem C3_counterexample :
    (findProposal dbC3 1).map Proposal.status = some PStatus.withdrawn ∧
    (updateProposalStatus dbC3 (some (7, Role.client)) 1 "accepted" none 99).2 = 200 ∧
    (findProposal (updateProposalStatus dbC3 (some (7, Role.client)) 1 "accepted" none 99).1
        1).map Proposal.status = some PStatus.accepted := by
  decide

/-- C3 (amended): the transition logic imposes no guard on the proposal's
current status.  An authorised `accepted`/`rejected` call sets exactly the
requested status whatever the current one — including out of `withdrawn`
and out of `rejected` — and an authorised withdraw sets `withdrawn`
whatever the current one, including out of `accepted`. -/
theorem C3_transitions_unguarded (db : DB) (uid : Nat) (role : Role) (pid : Nat)
    (p : Proposal) (x : Project) (st : String) (cr : Option String) (now : Nat)
    (hp : findProposal db pid = some p)
    (hx : findProject db p.project = some x)
    (hst : st = "accepted" ∨ st = "rejected")
    (hauth : role = Role.admin ∨ (role = Role.client ∧ x.client = uid)) :
    (∃ p', findProposal (updateProposalStatus db (some (uid, role)) pid st cr now).1 pid
        = some p' ∧
      p'.status = (if st = "accepted" then PStatus.accepted else PStatus.rejected)) ∧
    (∀ fuid frole, frole = Role.admin ∨ (frole = Role.freelancer ∧ p.freelancer = fuid) →
      ∃ p', findProposal (withdrawProposal db (some (fuid, frole)) pid).1 pid = some p' ∧
        p'.status = PStatus.withdrawn) := by
  have hpid : p.id = pid := findProposal_id hp
  constructor
  · rw [updateProposalStatus_run db uid role pid st cr now p x hp hx hst hauth]
    have hp' : findProposal db p.id = some p := by rw [hpid]; exact hp
    have := updateProposalStatusBody_proposal db p (some x) st cr now hp'
    rw [hpid] at this
    exact ⟨respondedProposal p st cr now, this, rfl⟩
  · intro fuid frole hfr
    rw [withdrawProposal_run db fuid frole pid p hp hfr]
    exact ⟨{ p with status := PStatus.withdrawn },
      findProposal_saveProposal_self db _ pid ⟨p, hp⟩ (hpid : p.id = pid), rfl⟩

/-- Witness for the amended C3, at the counterexample store: the withdrawn
proposal is re-accepted, and a withdraw also goes through. -/
theorem C3_transitions_unguarded_witness :
    (∃ p', findProposal (updateProposalStatus dbC3 (some (7, Role.client)) 1 "accepted"
        none 99).1 1 = some p' ∧
      p'.status = (if "accepted" = "accepted" then PStatus.accepted else PStatus.rejected)) ∧
    (∀ fuid frole, frole = Role.admin ∨
        (frole = Role.freelancer ∧ (mkProposal 1 1 5 PStatus.withdrawn 0).freelancer = fuid) →
      ∃ p', findProposal (withdrawProposal dbC3 (some (fuid, frole)) 1).1 1 = some p' ∧
        p'.status = PStatus.withdrawn) :=
  C3_transitions_unguarded dbC3 7 Role.client 1 (mkProposal 1 1 5 PStatus.withdrawn 0)
    (mkProject 1 7 none ProjStatus.«open») "accepted" none 99 (by decide) (by decide)
    (Or.inl rfl) (Or.inr ⟨rfl, by decide⟩)

/-! ## C7 -/

/-- C7: withdrawing never changes any project document (the projects
collection is unchanged for every caller and input), and an authorised
withdraw sets the proposal's status to `withdrawn` with HTTP 200, whatever
its prior status (including `accepted`). -/
theorem C7_withdraw_frame (db : DB) (uid : Nat) (role : Role) (pid : Nat) (p : Proposal)
    (hp : findProposal db pid = some p)
    (hauth : role = Role.admin ∨ (role = Role.freelancer ∧ p.freelancer = uid)) :
    (∀ user qid, (withdrawProposal db user qid).1.projects = db.projects) ∧
    (withdrawProposal db (some (uid, role)) pid).2 = 200 ∧
    ∃ p', findProposal (withdrawProposal db (some (uid, role)) pid).1 pid = some p' ∧
      p'.status = PStatus.withdrawn := by
  refine ⟨?_, ?_, ?_⟩
  · intro user qid
    match user with
    | none => rfl
    | some (v, r) =>
      simp only [withdrawProposal]
      split
      · rfl
      · split
        · rfl
        · split
          · rfl
          · rfl
  · rw [withdrawProposal_run db uid role pid p hp hauth]
  · rw [withdrawProposal_run db uid role pid p hp hauth]
    have hpid : p.id = pid := findProposal_id hp
    exact ⟨{ p with status := PStatus.withdrawn },
      findProposal_saveProposal_self db _ pid ⟨p, hp⟩ hpid, rfl⟩

def dbC7 : DB :=
  { projects := [mkProject 1 7 (some 5) ProjStatus.inProgress],
    proposals := [mkProposal 1 1 5 PStatus.accepted 0] }

/-- Witness for C7: the freelancer withdraws an accepted proposal; the
project stays assigned and in-progress (collection untouched). -/
theorem C7_withdraw_frame_witness :
    (∀ user qid, (withdrawProposal dbC7 user qid).1.projects = dbC7.projects) ∧
    (withdrawProposal dbC7 (some (5, Role.freelancer)) 1).2 = 200 ∧
    ∃ p', findProposal (withdrawProposal dbC7 (some (5, Role.freelancer)) 1).1 1 = some p' ∧
      p'.status = PStatus.withdrawn :=
  C7_withdraw_frame dbC7 5 Role.freelancer 1 (mkProposal 1 1 5 PStatus.accepted 0)
    (by decide) (Or.inr ⟨rfl, by decide⟩)

/-! ## C10 -/

def dbC10 : DB := { projects := [], proposals := [mkProposal 1 1 5 PStatus.pending 0] }

/-- C10 counterexample: with the referenced project missing, an admin accept
returns HTTP 500 — not success as claimed — although the proposal was still
marked accepted (write not rolled back). -/
theorem C10_counterexample :
    (updateProposalStatus dbC10 (some (9, Role.admin)) 1 "accepted" none 55).2 = 500 ∧
    (findProposal (updateProposalStatus dbC10 (some (9, Role.admin)) 1 "accepted" none 55).1
        1).map Proposal.status = some PStatus.accepted := by
  decide

/-- C10 (amended): when the proposal's referenced project does not exist, an
admin accept (or reject-after-accept) still writes the proposal — status set,
`respondedAt` set, no rollback — and touches no project, but the call
reports a 500 error (the TypeError on the null populated project surfaces
through the catch-all) instead of returning success; a client call dies in
the ownership check before any write at all. -/
theorem C10_missing_project (db : DB) (uid : Nat) (pid : Nat) (p : Proposal)
    (st : String) (cr : Option String) (now : Nat)
    (hp : findProposal db pid = some p)
    (hnone : findProject db p.project = none)
    (hst : st = "accepted" ∨ (st = "rejected" ∧ p.status = PStatus.accepted)) :
    (updateProposalStatus db (some (uid, Role.admin)) pid st cr now).2 = 500 ∧
    (updateProposalStatus db (some (uid, Role.admin)) pid st cr now).1.projects
        = db.projects ∧
    (∃ p', findProposal (updateProposalStatus db (some (uid, Role.admin)) pid st cr now).1 pid
        = some p' ∧
      p'.status = (if st = "accepted" then PStatus.accepted else PStatus.rejected) ∧
      p'.respondedAt = some now) ∧
    updateProposalStatus db (some (uid, Role.client)) pid st cr now = (db, 500) := by
  have hst2 : st = "accepted" ∨ st = "rejected" := by
    rcases hst with h | ⟨h, _⟩
    · exact Or.inl h
    · exact Or.inr h
  rw [updateProposalStatus_run_admin db uid pid st cr now p hp hst2, hnone,
      updateProposalStatusBody_noproj db p cr now st hst]
  have hpid : p.id = pid := findProposal_id hp
  exact ⟨rfl, rfl,
    ⟨respondedProposal p st cr now,
      findProposal_saveProposal_self db _ pid ⟨p, hp⟩ hpid, rfl, rfl⟩,
    updateProposalStatus_client_noproj db uid pid st cr now p hp hst2 hnone⟩

/-- Witness for the amended C10 at the counterexample store. -/
theorem C10_missing_project_witness :
    (updateProposalStatus dbC10 (some (9, Role.admin)) 1 "accepted" none 55).2 = 500 ∧
    (updateProposalStatus dbC10 (some (9, Role.admin)) 1 "accepted" none 55).1.projects
        = dbC10.projects ∧
    (∃ p', findProposal (updateProposalStatus dbC10 (some (9, Role.admin)) 1 "accepted"
        none 55).1 1 = some p' ∧
      p'.status = (if "accepted" = "accepted" then PStatus.accepted else PStatus.rejected) ∧
      p'.respondedAt = some 55) ∧
    updateProposalStatus dbC10 (some (9, Role.client)) 1 "accepted" none 55 = (dbC10, 500) :=
  C10_missing_project dbC10 9 1 (mkProposal 1 1 5 PStatus.pending 0) "accepted" none 55
    (by decide) (by decide) (Or.inl rfl)

/-! ## C6 -/

/-- C6: at most one proposal exists per (project, freelancer) pair — the
pairwise-uniqueness invariant (the unique `{project: 1, freelancer: 1}`
index) is preserved by every `createProposal` call — and a second submission
by the same freelancer to the same project returns the structured Conflict
(HTTP 409) "already applied" error with the store untouched: the
duplicate-key storage error is translated to 409 rather than surfaced as a
500. -/
theorem C6_duplicate_conflict (db : DB) (user : Option (Nat × Role)) (b : CreateBody)
    (newId now : Nat) :
    (List.Pairwise (fun q r => ¬(q.project = r.project ∧ q.freelancer = r.freelancer))
        db.proposals →
      List.Pairwise (fun q r => ¬(q.project = r.project ∧ q.freelancer = r.freelancer))
        (createProposal db user b newId now).1.proposals) ∧
    (∀ uid projId q, user = some (uid, Role.freelancer) → b.project = some projId →
      jsTrim b.coverLetter ≠ "" →
      (∃ bid, b.bidAmount = some bid ∧ 1 ≤ bid) →
      jsTrim b.timeline ≠ "" →
      (∃ proj, findProject db projId = some proj) →
      q ∈ db.proposals → q.project = projId → q.freelancer = uid →
      createProposal db user b newId now =
        (db, 409, "You have already applied to this project")) := by
  constructor
  · intro hpw
    match user with
    | none => exact hpw
    | some (uid, role) =>
      simp only [createProposal]
      split
      · exact hpw
      · split
        · exact hpw
        · split
          · exact hpw
          · split
            · exact hpw
            · split
              · exact hpw
              · split
                · exact hpw
                · split
                  · exact hpw
                  · split
                    · exact hpw
                    · rename_i projId _ bid _ _ proj _ hdup
                      simp only [proposals_saveProject]
                      rw [List.pairwise_append]
                      refine ⟨hpw, List.pairwise_singleton _ _, ?_⟩
                      intro a ha c hc
                      rw [List.mem_singleton] at hc
                      subst hc
                      rintro ⟨h1, h2⟩
                      exact hdup (List.any_eq_true.mpr ⟨a, ha, by simp [h1, h2]⟩)
  · intro uid projId q huser hproj hcl hbid htl hfound hq hq1 hq2
    obtain ⟨bid, hb1, hb2⟩ := hbid
    obtain ⟨proj, hpr⟩ := hfound
    subst huser
    have hdup : db.proposals.any
        (fun r => r.project == projId && r.freelancer == uid) = true :=
      List.any_eq_true.mpr ⟨q, hq, by simp [hq1, hq2]⟩
    simp only [createProposal, hproj, hb1, hpr]
    rw [if_neg (by decide), if_neg hcl, if_neg (by omega), if_neg htl, if_pos hdup]

def dbC6 : DB :=
  { projects := [mkProject 1 7 none ProjStatus.«open»],
    proposals := [mkProposal 1 1 5 PStatus.pending 0] }

def bodyC6 : CreateBody :=
  { project := some 1, coverLetter := "Hi there", bidAmount := some 100,
    timeline := "2 weeks" }

/-- Witness for C6: freelancer 5 already has a proposal on project 1; the
second submission yields exactly the 409 already-applied response with the
store unchanged. -/
theorem C6_duplicate_conflict_witness :
    createProposal dbC6 (some (5, Role.freelancer)) bodyC6 2 3 =
      (dbC6, 409, "You have already applied to this project") :=
  (C6_duplicate_conflict dbC6 (some (5, Role.freelancer)) bodyC6 2 3).2 5 1
    (mkProposal 1 1 5 PStatus.pending 0) rfl rfl (by decide) ⟨100, rfl, by decide⟩
    (by decide) ⟨mkProject 1 7 none ProjStatus.«open», by decide⟩ (by decide) rfl rfl

/-! ## C4 -/

/-- C4: role scope of the proposal listing.
(1) admin: the matched set (of which every page is served) is exactly the
proposals matching the supplied project/status filters;
(2) client with no filters: the matched set is exactly the union of
proposals across the projects the caller owns, and nothing else;
(3) client supplying a project filter for a project they do not own
(including a non-existent one): the call fails with 403 Forbidden;
(4) freelancer: every returned item is their own proposal, for any filter,
sort and pagination combination. -/
theorem C4_role_scoped_listing (db : DB) (uid : Nat) :
    (∀ pq sq f, buildProposalFilter db uid Role.admin pq sq = .ok f →
      ∀ p, p ∈ db.proposals.filter (fun q => proposalMatches f q) ↔
        p ∈ db.proposals ∧ (∀ j, pq = some j → p.project = j) ∧
          (∀ s, truthyStr sq = some s → pStatusStr p.status = s)) ∧
    (∀ f, buildProposalFilter db uid Role.client none none = .ok f →
      ∀ p, p ∈ db.proposals.filter (fun q => proposalMatches f q) ↔
        p ∈ db.proposals ∧ ∃ x, x ∈ db.projects ∧ x.client = uid ∧ p.project = x.id) ∧
    (∀ j sq sortQ pageQ limitQ, canActAsClientOnProject db uid j = false →
      getProposals db (some (uid, Role.client)) (some j) sq sortQ pageQ limitQ
        = .error 403) ∧
    (∀ pq sq sortQ pageQ limitQ r,
      getProposals db (some (uid, Role.freelancer)) pq sq sortQ pageQ limitQ = .ok r →
      ∀ p, p ∈ r.items → p.freelancer = uid) := by
  refine ⟨?_, ?_, ?_, ?_⟩
  · intro pq sq f hf p
    have hf' : f =
        { project := pq, projectIn := none, freelancer := none,
          status := truthyStr sq } := by
      simpa [buildProposalFilter] using hf.symm
    subst hf'
    rw [List.mem_filter]
    cases hpq : pq <;> cases hsq : truthyStr sq <;>
      simp [proposalMatches, hpq, hsq]
  · intro f hf p
    have hf' : f =
        { project := none,
          projectIn := some ((db.projects.filter (fun x => x.client == uid)).map
            (fun x => x.id)),
          freelancer := none, status := none } := by
      simpa [buildProposalFilter, truthyStr] using hf.symm
    subst hf'
    rw [List.mem_filter]
    simp [proposalMatches, List.mem_map, List.mem_filter]
    intro _
    constructor
    · rintro ⟨x, ⟨hx1, hx2⟩, hx3⟩
      exact ⟨x, hx1, hx2, hx3.symm⟩
    · rintro ⟨x, hx1, hx2, hx3⟩
      exact ⟨x, ⟨hx1, hx2⟩, hx3.symm⟩
  · intro j sq sortQ pageQ limitQ hcan
    simp [getProposals, buildProposalFilter, hcan]
  · intro pq sq sortQ pageQ limitQ r hok p hpmem
    simp only [getProposals, buildProposalFilter] at hok
    have hr := Except.ok.inj hok
    subst hr
    have h1 : p ∈ sortProposals (sortKeyOf sortQ)
        (db.proposals.filter (fun q => proposalMatches
          { project := pq, projectIn := none, freelancer := some uid,
            status := truthyStr sq } q)) :=
      List.drop_subset _ _ (List.take_subset _ _ hpmem)
    have h2 := (mem_sortProposals _ _ _).mp h1
    have h3 := (List.mem_filter.mp h2).2
    simp only [proposalMatches, Bool.and_eq_true] at h3
    simpa using h3.1.2

def dbC4 : DB :=
  { projects := [mkProject 1 7 none ProjStatus.«open»],
    proposals := [mkProposal 1 1 5 PStatus.pending 0] }

/-- Witness for C4 at a concrete store: client 8 does not own project 1, so
filtering the listing by that project is Forbidden. -/
theorem C4_role_scoped_listing_witness :
    getProposals dbC4 (some (8, Role.client)) (some 1) none none none none
      = .error 403 :=
  (C4_role_scoped_listing dbC4 8).2.2.1 1 none none none none (by decide)

/-! ## C8 -/

theorem buildPagination_limit_bounds (pageQ limitQ : Option Int) :
    1 ≤ (buildPagination pageQ limitQ).2.1 ∧ (buildPagination pageQ limitQ).2.1 ≤ 100 := by
  simp only [buildPagination]
  constructor
  · have h1 : (1 : Int) ≤ min 100 (max 1 (match limitQ with
        | none => 20
        | some v => if v = 0 then 20 else v)) :=
      le_min (by norm_num) (le_max_left 1 _)
    omega
  · have h2 : min 100 (max 1 (match limitQ with
        | none => 20
        | some v => if v = 0 then 20 else v)) ≤ 100 := min_le_left _ _
    omega

theorem buildPagination_limit_default (pageQ : Option Int) :
    (buildPagination pageQ none).2.1 = 20 := by
  simp only [buildPagination]
  decide

/-- C8: for every successful proposal-listing call, the effective page size
is clamped to 1..100 (default 20), the served page is the
`drop ((page-1)*limit) |>.take limit` slice of the active sort order of the
matched set — page 2 with limit 10 serves items 11–20 — and `totalPages`
is the ceiling of `total / limit`. -/
theorem C8_pagination (db : DB) (uid : Nat) (role : Role)
    (pq : Option Nat) (sq sortQ : Option String) (pageQ limitQ : Option Int)
    (f : PropFilter) (r : ListResult)
    (hf : buildProposalFilter db uid role pq sq = .ok f)
    (hok : getProposals db (some (uid, role)) pq sq sortQ pageQ limitQ = .ok r) :
    (1 ≤ r.limit ∧ r.limit ≤ 100) ∧
    (limitQ = none → r.limit = 20) ∧
    r.page = (buildPagination pageQ limitQ).1 ∧
    r.items = ((sortProposals (sortKeyOf sortQ)
        (db.proposals.filter (fun q => proposalMatches f q))).drop
          ((r.page - 1) * r.limit)).take r.limit ∧
    (pageQ = some 2 → limitQ = some 10 →
      r.items = ((sortProposals (sortKeyOf sortQ)
          (db.proposals.filter (fun q => proposalMatches f q))).drop 10).take 10) ∧
    r.total = (db.proposals.filter (fun q => proposalMatches f q)).length ∧
    r.totalPages = ⌈(r.total : ℚ) / (r.limit : ℚ)⌉₊ := by
  simp only [getProposals, hf] at hok
  have hr := Except.ok.inj hok
  subst hr
  refine ⟨buildPagination_limit_bounds pageQ limitQ, ?_, rfl, rfl, ?_, rfl, ?_⟩
  · intro h
    subst h
    exact buildPagination_limit_default pageQ
  · intro h1 h2
    subst h1
    subst h2
    have hpg : buildPagination (some 2) (some 10) = (2, 10, 10) := by decide
    simp only [hpg]
  · have hb := (buildPagination_limit_bounds pageQ limitQ).1
    exact mathCeilDiv_eq_ceil _ _ hb

def dbC8 : DB :=
  { projects := [mkProject 1 7 none ProjStatus.«open»],
    proposals := [mkProposal 1 1 5 PStatus.pending 0] }

/-- Witness for C8: the default page of freelancer 5's listing over a
one-proposal store. -/
theorem C8_pagination_witness :
    (1 ≤ 20 ∧ 20 ≤ 100) ∧
    ((none : Option Int) = none → 20 = 20) ∧
    1 = (buildPagination none none).1 ∧
    [mkProposal 1 1 5 PStatus.pending 0] = ((sortProposals (sortKeyOf none)
        (dbC8.proposals.filter (fun q => proposalMatches
          { project := none, projectIn := none, freelancer := some 5,
            status := none } q))).drop ((1 - 1) * 20)).take 20 ∧
    ((none : Option Int) = some 2 → (none : Option Int) = some 10 →
      [mkProposal 1 1 5 PStatus.pending 0] = ((sortProposals (sortKeyOf none)
          (dbC8.proposals.filter (fun q => proposalMatches
            { project := none, projectIn := none, freelancer := some 5,
              status := none } q))).drop 10).take 10) ∧
    1 = (dbC8.proposals.filter (fun q => proposalMatches
        { project := none, projectIn := none, freelancer := some 5,
          status := none } q)).length ∧
    1 = ⌈((1 : Nat) : ℚ) / ((20 : Nat) : ℚ)⌉₊ :=
  C8_pagination dbC8 5 Role.freelancer none none none none none
    { project := none, projectIn := none, freelancer := some 5, status := none }
    { items := [mkProposal 1 1 5 PStatus.pending 0], page := 1, limit := 20,
      total := 1, totalPages := 1 }
    rfl rfl

/-! ## C5 -/

def dbC5 : DB :=
  { projects := [mkProject 1 7 none ProjStatus.inProgress], proposals := [] }

/-- C5: the code violates the claim.  An unauthenticated call with
`?status=in-progress` returns the in-progress project: a supplied status
filter survives the open-only public-browse default
(`if (!filter.status) filter.status = 'open'` only fires when no status was
given), contradicting the function's own header comment
("If not authenticated: returns OPEN projects only (public browse)").
At the failing input the returned page is exactly the non-open project. -/
theorem C5_code_bug :
    (getProjects (fun _ _ => false) dbC5 none none none none (some "in-progress")
        none none none none).items = [mkProject 1 7 none ProjStatus.inProgress] ∧
    (mkProject 1 7 none ProjStatus.inProgress).status ≠ ProjStatus.«open» := by
  decide

/-! ## C9 -/

def dbC9 : DB :=
  { projects := [mkProject 1 7 none ProjStatus.«open»], proposals := [] }

/-- C9 counterexample: at `now` = noon of day 6, the project created at
midnight of day 0 lies within the last 7 calendar days inclusive of today
(its calendar day is exactly 6 days before today's), yet the trend is
empty: the `$match` cutoff is now minus six days at the same time of day,
so the earliest calendar day of the window is only partially covered. -/
theorem C9_counterexample :
    dayOf (6 * 86400 + 43200) -
      dayOf ((mkProject 1 7 none ProjStatus.«open»).createdAt) ≤ 6 ∧
    adminTrend7d dbC9 (6 * 86400 + 43200) = [] := by
  decide

/-- C9 (amended): the 7-day trend has one entry per calendar day among the
projects with `createdAt ≥ now − 6·86400` — a rolling cutoff six days back
at the same time of day, not a calendar-aligned window — with exactly the
count of that day's matching projects, sorted ascending by day; no project
below the cutoff is counted. -/
theorem C9_trend7d (db : DB) (now : Nat) :
    (∀ d c, (d, c) ∈ adminTrend7d db now ↔
      ((∃ x, x ∈ db.projects ∧ now - 6 * 86400 ≤ x.createdAt ∧
          dayOf x.createdAt = d) ∧
       c = ((db.projects.filter (fun x => now - 6 * 86400 ≤ x.createdAt)).filter
            (fun x => dayOf x.createdAt == d)).length)) ∧
    List.Pairwise (fun a b => a.1 ≤ b.1) (adminTrend7d db now) := by
  constructor
  · intro d c
    simp only [adminTrend7d, List.mem_map, mem_mongoSort, List.mem_dedup,
      List.mem_filter, Prod.mk.injEq, decide_eq_true_eq]
    constructor
    · rintro ⟨d', ⟨x, ⟨hx1, hx2⟩, hx3⟩, rfl, rfl⟩
      exact ⟨⟨x, hx1, by simpa using hx2, hx3⟩, rfl⟩
    · rintro ⟨⟨x, hx1, hx2, hx3⟩, rfl⟩
      exact ⟨d, ⟨x, ⟨hx1, by simpa using hx2⟩, hx3⟩, rfl, rfl⟩
  · have htot : ∀ a b : Nat, (fun a b : Nat => (a ≤ b : Bool)) a b = false →
        (fun a b : Nat => (a ≤ b : Bool)) b a = true := by
      intro a b h
      simp only [decide_eq_false_iff_not] at h
      simp only [decide_eq_true_eq]
      omega
    have htrans : ∀ a b c : Nat, (fun a b : Nat => (a ≤ b : Bool)) a b = true →
        (fun a b : Nat => (a ≤ b : Bool)) b c = true →
        (fun a b : Nat => (a ≤ b : Bool)) a c = true := by
      intro a b c h1 h2
      simp only [decide_eq_true_eq] at h1 h2 ⊢
      omega
    simp only [adminTrend7d]
    rw [List.pairwise_map]
    exact (pairwise_mongoSort _ htot htrans _).imp (fun h => by simpa using h)

/-- Witness for the amended C9: with `now` at midnight of day 6 the cutoff
is 0, so the day-0 project is counted in bucket (0, 1). -/
theorem C9_trend7d_witness : (0, 1) ∈ adminTrend7d dbC9 (6 * 86400) :=
  ((C9_trend7d dbC9 (6 * 86400)).1 0 1).mpr
    ⟨⟨mkProject 1 7 none ProjStatus.«open», by decide, by decide, rfl⟩, by decide⟩
